import Mathlib

/-!
Verification of the webhook event pipeline and multi-agent review
orchestration of the forte-hackathon-core repository.

The Python sources are shallowly embedded: Python values flowing through
`json.loads` are modelled by the inductive `Json` (non-integral JSON
numbers are not modelled; no claim depends on them), fallible Python code
is modelled in `Except PyError`, and every external collaborator (VCS
adapter, LLM client, ticket tracker, key-value file store) is supplied
through an explicit environment record, so that a universally quantified
environment ranges over all behaviours of the collaborators.
-/

namespace ForteCore

/-- Model of a parsed JSON document / dynamic Python value as produced by
`json.loads`.  Booleans, `None`, integers, strings, lists and dicts are
modelled; non-integral numbers are omitted (no claim involves them). -/
inductive Json where
  | null
  | bool (b : Bool)
  | int (n : Int)
  | str (s : String)
  | arr (elems : List Json)
  | obj (fields : List (String × Json))

/-- Python exception classes that the embedded code can raise. -/
inductive PyError where
  | runtimeError (msg : String)
  | attributeError (msg : String)
  | typeError (msg : String)
  | valueError (msg : String)
  | indexError (msg : String)
deriving DecidableEq, Repr

/-- Python truthiness (`bool(x)`) on modelled values. -/
def pyTruthy : Json → Bool
  | .null => false
  | .bool b => b
  | .int n => n != 0
  | .str s => s != ""
  | .arr xs => match xs with | [] => false | _ => true
  | .obj kvs => match kvs with | [] => false | _ => true

/-- Lookup in a JSON object, i.e. Python `dict.get(k)` after `json.loads`:
with duplicate keys the parsed dict keeps the last value. -/
def jsonGet (kvs : List (String × Json)) (k : String) : Option Json :=
  kvs.foldl (fun acc kv => if kv.1 = k then some kv.2 else acc) none

/-- Python `a or b` where `a` is an optional dynamic value (a missing dict
entry is `None`, hence falsy). -/
def orJson (a : Option Json) (b : Option Json) : Option Json :=
  match a with
  | some v => if pyTruthy v then some v else b
  | none => b

/-- Characters treated as whitespace by Python `str.strip()` (ASCII part). -/
def isPySpace (c : Char) : Bool :=
  c = ' ' || c = '\t' || c = '\n' || c = '\r' || c.toNat = 11 || c.toNat = 12

/-- Python `str.strip()` (whitespace on both ends). -/
def pyStrip (s : String) : String :=
  String.mk (((s.data.dropWhile isPySpace).reverse.dropWhile isPySpace).reverse)

/-- Python `str.lower()` restricted to ASCII case mapping. -/
def pyLower (s : String) : String :=
  String.mk (s.data.map Char.toLower)

/-- Python substring test `needle in hay`. -/
def containsStr (hay needle : String) : Bool :=
  decide (List.IsInfix needle.data hay.data)

/-- Digit-run parser for Python `int(str)`: digits with single underscores
allowed strictly between digits. -/
def pyDigits (cs : List Char) : Option Nat :=
  if cs = [] then none
  else if cs.head? = some '_' ∨ cs.getLast? = some '_' then none
  else if (cs.zip (cs.drop 1)).any (fun p => p.1 = '_' ∧ p.2 = '_') then none
  else
    let ds := cs.filter (· ≠ '_')
    if ds.all (·.isDigit) then
      some (ds.foldl (fun acc c => acc * 10 + (c.toNat - '0'.toNat)) 0)
    else none

/-- Python `int()` applied to a string: optional surrounding whitespace,
optional sign, then a digit run. -/
def pyIntOfString (s : String) : Option Int :=
  let cs := (pyStrip s).data
  match cs with
  | '+' :: rest => (pyDigits rest).map (Int.ofNat ·)
  | '-' :: rest => (pyDigits rest).map (fun n => -(Int.ofNat n))
  | _ => (pyDigits cs).map (Int.ofNat ·)

/-- Python `int()` applied to a dynamic value; `none` models a raised
`TypeError`/`ValueError`.  Booleans convert (a Python `bool` is an `int`),
strings are parsed, every other modelled value raises. -/
def pyToInt : Json → Option Int
  | .bool b => some (if b then 1 else 0)
  | .int n => some n
  | .str s => pyIntOfString s
  | _ => none

/-- Python `int(x)` where `x` came from `dict.get` and may be missing
(`int(None)` raises). -/
def pyToIntOpt : Option Json → Option Int
  | some v => pyToInt v
  | none => none

/-- Python iteration `for item in x`: lists yield elements, strings yield
one-character strings, dicts yield their keys (first-occurrence order,
as a dict parsed from JSON has unique keys), everything else raises
`TypeError`. -/
def pyIter : Json → Except PyError (List Json)
  | .arr xs => .ok xs
  | .str s => .ok (s.data.map (fun c => .str (String.mk [c])))
  | .obj kvs => .ok ((kvs.map (·.1)).eraseDups.map (.str ·))
  | _ => .error (.typeError ("object is not iterable"))

/-- Attribute access `x.get` on a value required to be a dict; any other
value raises `AttributeError`. -/
def asDict : Json → Except PyError (List (String × Json))
  | .obj kvs => .ok kvs
  | _ => .error (.attributeError ("object has no attribute get"))

/-- Python `str(x)` / f-string conversion of an optional dynamic value
(`None` prints as `None`; container rendering is approximated, no claim
evaluates it). -/
def fstr : Option Json → String
  | none => "None"
  | some .null => "None"
  | some (.bool b) => if b then "True" else "False"
  | some (.int n) => toString n
  | some (.str s) => s
  | some (.arr _) => "[...]"
  | some (.obj _) => "\x7b...\x7d"

/-! Agent result data model (src/app/review/agentic/models.py). -/

/-- Embeds `AgentFinding` from src/app/review/agentic/models.py. -/
structure AgentFinding where
  path : String
  line : Int
  body : String
  source : String := ""
deriving DecidableEq, Repr

/-- Embeds `AgentResult` from src/app/review/agentic/models.py. -/
structure AgentResult where
  key : String
  content : String := ""
  success : Bool := true
  error : Option String := none
  findings : List AgentFinding := []
deriving DecidableEq, Repr

/-! Structured agents (src/app/review/agentic/agents/naming_agent.py and
test_agent.py).  `json.loads` is an external library routine and is passed
in as an abstract parser `jparse : String → Option Json`, where `none`
models a raised parse exception. -/

/-- Embeds `BaseAgent.postprocess` (src/app/review/agentic/agents/base.py):
`output.strip()`. -/
def postprocessBase (output : String) : String :=
  pyStrip output

/-- Embeds `_strip_code_fence` (identical in naming_agent.py:72-77 and
test_agent.py:106-111): strip; then, only when the stripped text starts
with a three-backtick fence (both `re.sub` calls sit inside the
`startswith` guard), remove that leading fence with its language tag and
following whitespace, and remove a trailing three-backtick fence with
its preceding whitespace.  Text that merely *ends* with a fence is left
intact. -/
def stripCodeFence (text : String) : String :=
  let cs := (pyStrip text).data
  match cs with
  | '`' :: '`' :: '`' :: rest =>
    let cs2 :=
      (rest.dropWhile (fun (c : Char) => c.isAlphanum || c = '_' || c = '-')).dropWhile isPySpace
    let rcs := cs2.reverse
    let rcs :=
      match rcs with
      | '`' :: '`' :: '`' :: rest2 => rest2.dropWhile isPySpace
      | _ => rcs
    String.mk rcs.reverse
  | _ => String.mk cs

/-- Embeds the findings-entry acceptance test of the loop shared verbatim
by naming_agent.py:55-66 and test_agent.py:91-102: an entry contributes a
finding when it is a dict, `int(line)` succeeds and is positive, `path` is
a truthy string and `comment` is a string with non-blank strip. -/
def acceptEntry (key : String) (item : Json) : Option AgentFinding :=
  match item with
  | .obj kvs =>
    match pyToIntOpt (jsonGet kvs ("line")) with
    | none => none
    | some lineNum =>
      match jsonGet kvs ("path"), jsonGet kvs ("comment") with
      | some (.str path), some (.str comment) =>
        if path ≠ "" ∧ lineNum > 0 ∧ pyStrip comment ≠ "" then
          some { path := path, line := lineNum, body := pyStrip comment, source := key }
        else none
      | _, _ => none
  | _ => none

/-- Embeds the findings-collection loop shared verbatim by
naming_agent.py:54-66 and test_agent.py:90-102 (the spec itself mandates a
shared helper for this duplicated logic). -/
def extractFindings (key : String) (items : List Json) : List AgentFinding :=
  items.filterMap (acceptEntry key)

/-- Embeds `NamingQualityAgent.parse_output`
(src/app/review/agentic/agents/naming_agent.py:46-70).  A raised
exception is an `Except.error`; in particular `data.get` on a non-dict
parse result raises `AttributeError` and iterating a non-iterable
`summary`/`findings` value raises `TypeError`, exactly as in Python. -/
def namingParseOutput (jparse : String → Option Json) (output : String) :
    Except PyError AgentResult :=
  let text := postprocessBase output
  match jparse (stripCodeFence text) with
  | none => .ok { key := "naming_quality", content := text, success := true }
  | some data => do
    let kvs ← asDict data
    let sumItems ← pyIter ((jsonGet kvs ("summary")).getD (.arr []))
    let summaryItems := sumItems.filterMap (fun j =>
      match j with
      | .str s => if pyStrip s ≠ "" then some (pyStrip s) else none
      | _ => none)
    let content :=
      if summaryItems ≠ [] then
        String.intercalate ("\n") (summaryItems.map (fun item => "- " ++ item))
      else ""
    let fItems ← pyIter ((jsonGet kvs ("findings")).getD (.arr []))
    let findings := extractFindings ("naming_quality") fItems
    let content :=
      if findings = [] ∧ (summaryItems = [] ∨
          summaryItems.any (fun s => containsStr (pyLower s) ("look fine"))) then ""
      else content
    .ok { key := "naming_quality", content := content, success := true,
          findings := findings }

/-- Python `data.get(label) or []` followed by an `isinstance(items, list)`
check: missing or falsy values become the empty list; truthy non-list
values are skipped (test_agent.py:60-61). -/
def listOrSkip (v : Option Json) : List Json :=
  match orJson v (some (.arr [])) with
  | some (.arr xs) => xs
  | _ => []

/-- Python `data.get(label, []) or []`: the value when truthy, else `[]`. -/
def pyOrEmptyList (v : Option Json) : Json :=
  match orJson v (some (.arr [])) with
  | some j => j
  | none => .arr []

/-- Embeds the proposed-test block construction of
`TestCoverageAgent.parse_output` (test_agent.py:75-86). -/
def proposedBlock (t : Json) : Option String :=
  match t with
  | .obj kvs =>
    match jsonGet kvs ("path"), jsonGet kvs ("code") with
    | some (.str path), some (.str code) =>
      if pyStrip path ≠ "" ∧ pyStrip code ≠ "" then
        let header := "\n\nProposed test: " ++ path
        let header :=
          match jsonGet kvs ("rationale") with
          | some (.str r) => if pyStrip r ≠ "" then header ++ "\nReason: " ++ pyStrip r else header
          | _ => header
        some (header ++ "\n" ++ pyStrip code)
      else none
    | _, _ => none
  | _ => none

/-- Embeds `TestCoverageAgent.parse_output`
(src/app/review/agentic/agents/test_agent.py:52-104). -/
def testParseOutput (jparse : String → Option Json) (output : String) :
    Except PyError AgentResult :=
  let text := postprocessBase output
  match jparse (stripCodeFence text) with
  | none => .ok { key := "test_coverage", content := text, success := true }
  | some data => do
    let kvs ← asDict data
    let collect := fun (label : String) =>
      (listOrSkip (jsonGet kvs label)).filterMap (fun j =>
        match j with
        | .str s => if pyStrip s ≠ "" then some ("- " ++ pyStrip s) else none
        | _ => none)
    let parts := collect ("summary") ++ collect ("gaps")
    let recoRaw ← pyIter (pyOrEmptyList (jsonGet kvs ("recommended_tests")))
    let recoItems := recoRaw.filterMap (fun j =>
      match j with
      | .str s => if pyStrip s ≠ "" then some (pyStrip s) else none
      | _ => none)
    let parts :=
      if recoItems ≠ [] then
        parts ++ ["Recommended tests:"] ++ recoItems.map (fun t => "- [add] " ++ t)
      else parts
    let propRaw ← pyIter (pyOrEmptyList (jsonGet kvs ("proposed_tests")))
    let blocks := propRaw.filterMap proposedBlock
    let parts := if blocks ≠ [] then parts ++ [String.intercalate ("\n") blocks] else parts
    let body := pyStrip (String.intercalate ("\n") parts)
    let fItems ← pyIter (pyOrEmptyList (jsonGet kvs ("findings")))
    let findings := extractFindings ("test_coverage") fItems
    .ok { key := "test_coverage", content := body, success := true,
          findings := findings }

/-! Review data model (src/app/review/base.py). -/

/-- Embeds `InlineFinding` from src/app/review/base.py. -/
structure InlineFinding where
  path : String
  line : Int
  body : String
  source : String := ""
deriving DecidableEq, Repr

/-- Embeds `ReviewComment` from src/app/review/base.py. -/
structure ReviewComment where
  title : String
  body : String
deriving DecidableEq, Repr

/-- Embeds `ReviewComment.to_markdown` (src/app/review/base.py:11-14). -/
def toMarkdown (c : ReviewComment) : String :=
  if c.title ≠ "" then pyStrip ("### " ++ c.title ++ "\n\n" ++ c.body)
  else pyStrip c.body

/-- Embeds `ReviewOutput` from src/app/review/base.py. -/
structure ReviewOutput where
  comments : List ReviewComment := []
  inline_findings : List InlineFinding := []
deriving DecidableEq, Repr

/-! Finding merge and sort of `AgenticReviewGenerator.generate_review`
(src/app/review/agentic/generator.py:60-88). -/

/-- Embeds the sort key comparison of generator.py:80: Python
`list.sort(key=lambda f: (f.path, f.line))`, i.e. lexicographic on the
pair `(path, line)`. -/
def findingLe (a b : AgentFinding) : Bool :=
  if a.path = b.path then decide (a.line ≤ b.line) else decide (a.path < b.path)

/-- Stable insertion of one element into an already-processed prefix: the
new element goes after every element less-or-equal to it, matching the
stability guarantee of Python `list.sort`. -/
def insertByLe (le : α → α → Bool) (x : α) : List α → List α
  | [] => [x]
  | y :: ys => if le y x then y :: insertByLe le x ys else x :: y :: ys

/-- Stable sort by repeated insertion; on a total transitive comparison it
computes the same list as any stable sort, in particular Python
`list.sort(key=...)`. -/
def stableSort (le : α → α → Bool) (l : List α) : List α :=
  l.foldl (fun acc x => insertByLe le x acc) []

/-- Embeds the fan-in of `generate_review` (generator.py:60-88) as a
function of the agent results in completion order: findings are gathered
by extending in the order results complete (line 76-77), sorted by
`(path, line)` when non-empty (line 79-80), and wrapped into
`InlineFinding` records (line 83-87).  Which results complete first is
scheduler-dependent, so claims quantify over the completion order. -/
def inlineFindingsOf (completionOrder : List AgentResult) : List InlineFinding :=
  let gathered := completionOrder.flatMap (fun r => r.findings)
  let sorted := match gathered with
    | [] => gathered
    | _ => stableSort findingLe gathered
  sorted.map (fun f =>
    { path := f.path, line := f.line, body := f.body,
      source := if f.source ≠ "" then f.source else "" })

/-- Sort key comparison on the wrapped `InlineFinding` records. -/
def inlineLe (a b : InlineFinding) : Bool :=
  if a.path = b.path then decide (a.line ≤ b.line) else decide (a.path < b.path)

/-! Project context loading (src/app/review/agentic/context_loader.py). -/

/-- Embeds `ProjectContext` from src/app/review/agentic/models.py; the
fields hold dynamic values because `load_project_context` fills them
straight from `dict.get` without type checks. -/
structure ProjectContext where
  name : Json := .str "Default Project"
  description : Json := .str ""
  tech_stack : List Json := []
  architecture : List Json := []
  testing_standards : Json := .str ""
  coding_guidelines : Json := .str ""

/-- Embeds `load_project_context`
(src/app/review/agentic/context_loader.py:8-24).  The filesystem is
abstracted: `fileExists` models `Path.exists()` and `contentRead` the
outcome of `read_text`; `jparse` abstracts `json.loads` as elsewhere.
The `try` block covers only the read and the parse (lines 12-16); the
construction of the result (lines 17-24) is outside it, so `data.get` on
a non-dict parse result and `list(...)` on a non-iterable raise. -/
def loadProjectContext (jparse : String → Option Json) (fileExists : Bool)
    (contentRead : Except PyError String) : Except PyError ProjectContext :=
  if !fileExists then .ok {}
  else
    match contentRead with
    | .error _ => .ok {}
    | .ok raw =>
      match jparse raw with
      | none => .ok {}
      | some data => do
        let kvs ← asDict data
        let techStack ← pyIter ((jsonGet kvs ("tech_stack")).getD (.arr []))
        let arch ← pyIter ((jsonGet kvs ("architecture")).getD (.arr []))
        .ok { name := (jsonGet kvs ("name")).getD (.str "Default Project"),
              description := (jsonGet kvs ("description")).getD (.str ""),
              tech_stack := techStack,
              architecture := arch,
              testing_standards := (jsonGet kvs ("testing_standards")).getD (.str ""),
              coding_guidelines := (jsonGet kvs ("coding_guidelines")).getD (.str "") }

/-! Event pre-filtering (src/app/webhook_processor.py:25-52).  This is the
variant returning a status dict; the idempotency-marker processor in
src/app/webhook/processor.py:37-43 only accepts `action == "open"`.
Neither variant reads the `changes` attribute of the payload. -/

/-- Status dictionary outcomes of `handle_merge_request_event`:
`ignored` for the `status: ignored` dicts, `error` for the
`status: error, code: 400` dicts, `ok` for `status: ok, validated`. -/
inductive EventStatus where
  | ignored
  | error
  | ok
deriving DecidableEq, Repr

/-- Python `payload.get(k, default) or default` for a value that must then
be used as a dict. -/
def dictOrDefault (v : Option Json) : Json :=
  match orJson v (some (.obj [])) with
  | some j => j
  | none => .obj []

/-- Embeds `WebhookProcessor.handle_merge_request_event`
(src/app/webhook_processor.py:25-52).  The payload is the parsed JSON
body (a dict).  A truthy non-dict `object_attributes` or `project` value
raises `AttributeError` at the subsequent `.get`, as in Python. -/
def handleMergeRequestEvent (payload : List (String × Json)) :
    Except PyError EventStatus := do
  match jsonGet payload ("object_kind") with
  | some (.str s) =>
    if s ≠ "merge_request" then return .ignored
  | _ => return .ignored
  let attributes ← asDict (dictOrDefault (jsonGet payload ("object_attributes")))
  let projectInfo ← asDict (dictOrDefault (jsonGet payload ("project")))
  let action := jsonGet attributes ("action")
  let projectId := jsonGet projectInfo ("id")
  let mrIid := jsonGet attributes ("iid")
  match (projectId.getD .null), (mrIid.getD .null) with
  | .null, _ => return .error
  | _, .null => return .error
  | pj, mj =>
    match pyToInt pj, pyToInt mj with
    | some p, some m =>
      if p ≤ 0 ∨ m ≤ 0 then return .error
      match action with
      | some (.str a) =>
        if a = "open" ∨ a = "reopen" ∨ a = "update" then return .ok
        else return .ignored
      | _ => return .ignored
    | _, _ => return .error

/-- Builds a well-formed merge-request webhook payload with the given
action, ids and `changes` attribute, for stating that the classification
never depends on `changes`. -/
def mkMRPayload (action : String) (pid iid : Int) (changes : Json) :
    List (String × Json) :=
  [("object_kind", .str "merge_request"),
   ("object_attributes", .obj
     [("iid", .int iid), ("action", .str action),
      ("title", .str "T"), ("description", .str "D"),
      ("updated_at", .str "2025-01-01T00:00:00Z"),
      ("changes", changes)]),
   ("project", .obj [("id", .int pid)])]

/-! Webhook processor (src/app/webhook/processor.py), the canonical
idempotency-marker variant, with the data-gathering step of the legacy
variant (src/app/webhook_processor.py:54-81) embedded alongside for
comparison.  External collaborators are supplied through `ProcEnv`: each
field gives the outcome of one external call (`Except.error` models that
the call raises). -/

/-- Attributes of the merge-request object read by
`_augment_with_tickets` (processor.py:141-144). -/
structure MRInfo where
  labels : List String := []
  createdAt : Option String := none
  webUrl : Option String := none

/-- Outcomes of the external calls made during one
`process_merge_request` run.  Posting outcomes are indexed by call count
so that any prefix of posts can succeed before a failure. -/
structure ProcEnv where
  makeService : Except PyError Unit := .ok ()
  getProject : Except PyError Unit := .ok ()
  diffText : Except PyError String := .ok ""
  changedFiles : Except PyError (List (String × String)) := .ok []
  commits : Except PyError (List Json) := .ok []
  mrGet : Except PyError MRInfo := .ok {}
  jiraIssues : Except PyError (List Json) := .ok []
  branches : Except PyError (String × String) := .error (.runtimeError "no branches")
  defaultBranch : Option String := none
  readFile : String → Except PyError (Option String) := fun _ => .ok none
  repoTree : Except PyError (List Json) := .ok []
  review : String → String → Except PyError ReviewOutput := fun _ _ => .ok {}
  classify : Except PyError (Option (List String)) := .ok none
  latestVersionId : Except PyError (Option String) := .ok none
  postNote : Nat → Option PyError := fun _ => none
  reviewLine : Nat → Option PyError := fun _ => none
  updateLabels : Option PyError := none

/-- Static configuration of a `WebhookProcessor` instance
(processor.py:25-32): whether a VCS service instance was injected,
whether a Jira service is configured, and whether both a tag classifier
and label candidates are configured. -/
structure ProcCfg where
  serviceProvided : Bool := true
  hasJira : Bool := false
  hasClassifier : Bool := false

/-- Contents of the two JSON marker files `mr_versions.json` and
`mr_commits.json` managed through load_json/save_json
(src/app/storage/json_store.py), each a dict from
`"project_id:mr_iid"` keys to lists of already-seen ids. -/
structure MarkerStore where
  versions : List (String × List String) := []
  commits : List (String × List String) := []
deriving DecidableEq, Repr

/-- Python `store.get(key, [])` on a marker dict. -/
def dGet (d : List (String × List String)) (k : String) : List String :=
  match d.find? (fun kv => kv.1 = k) with
  | some kv => kv.2
  | none => []

/-- Python `store[key] = seen` on a marker dict. -/
def dSet (d : List (String × List String)) (k : String) (v : List String) :
    List (String × List String) :=
  match d with
  | [] => [(k, v)]
  | kv :: rest => if kv.1 = k then (k, v) :: rest else kv :: dSet rest k v

/-- Observable posting side effects of one run, in order. -/
inductive Post where
  | note (body : String)
  | inline (path : String) (line : Int) (body : String)
  | labels (ls : List String)
deriving DecidableEq, Repr

/-- Embeds `_ReviewOutcome` (processor.py:18-22). -/
structure ReviewOutcome where
  comments : List String := []
  labels : Option (List String) := none
  inline_findings : List InlineFinding := []
deriving DecidableEq, Repr

/-- Embeds the commit-message extraction of `_gather_mr_data`
(processor.py:100): keep `c.get("message", "")` for every commit dict
with a truthy message. -/
def commitMessages (commitObjs : List Json) : List Json :=
  commitObjs.filterMap (fun c =>
    match c with
    | .obj kvs =>
      let m := (jsonGet kvs ("message")).getD (.str "")
      if pyTruthy m then some m else none
    | _ => none)

/-- Embeds `_gather_mr_data` (processor.py:88-101).  Despite its
docstring ("Returns empty values when individual fetches fail"), the
three `Future.result()` calls are not wrapped in try/except, so the first
failing fetch (in result-collection order diff, files, commits) raises
out of the method. -/
def gatherMrData (env : ProcEnv) :
    Except PyError (String × List (String × String) × List Json) := do
  let diffText ← env.diffText
  let changedFiles ← env.changedFiles
  let commitObjs ← env.commits
  .ok (diffText, changedFiles, commitMessages commitObjs)

/-- Embeds the data-gathering step of the legacy
`WebhookProcessor.process_merge_request`
(src/app/webhook_processor.py:61-81): each of the three fetches is
individually wrapped in try/except and degrades to an empty value. -/
def gatherMrDataLegacy (env : ProcEnv) :
    String × List (String × String) × List Json :=
  (match env.diffText with | .ok d => d | .error _ => "",
    match env.changedFiles with | .ok f => f | .error _ => [],
    match env.commits with | .ok cs => commitMessages cs | .error _ => [])

/-- Embeds the ticket line construction of `_augment_with_tickets`
(processor.py:156); `it.get` on a non-dict issue raises. -/
def issueLine (it : Json) : Except PyError String :=
  match it with
  | .obj kvs =>
    .ok ("- " ++ fstr (jsonGet kvs ("key")) ++ " [" ++ fstr (jsonGet kvs ("status"))
      ++ "]: " ++ fstr (jsonGet kvs ("summary")) ++ " (" ++ fstr (jsonGet kvs ("url")) ++ ")")
  | _ => .error (.attributeError ("object has no attribute get"))

/-- Embeds `_augment_with_tickets` (processor.py:134-157).  Contrary to
its docstring, nothing is caught here: a failing MR fetch or Jira search
raises. -/
def augmentWithTickets (cfg : ProcCfg) (env : ProcEnv) (description : String) :
    Except PyError String := do
  if !cfg.hasJira then return description
  let _ ← env.mrGet
  let issues ← env.jiraIssues
  match issues with
  | [] => return description
  | _ =>
    let lines ← issues.mapM issueLine
    return description ++ "\n\n" ++ String.intercalate ("\n") ("Related Tickets:" :: lines)

/-- Embeds `_read_project_doc` (processor.py:186-195): try ABOUT.md then
README.md; a `None` read continues, any content (even blank) returns, and
oversized content is truncated. -/
def readProjectDoc (env : ProcEnv) : Except PyError (String × String) := do
  match ← env.readFile ("ABOUT.md") with
  | some content => return (truncDoc (pyStrip content), "ABOUT.md")
  | none =>
    match ← env.readFile ("README.md") with
    | some content => return (truncDoc (pyStrip content), "README.md")
    | none => return ("", "")
where
  truncDoc (t : String) : String :=
    if t.length > 4000 then t.take 4000 ++ "\n... (truncated)" else t

/-- Embeds one line of `_collect_repo_tree_listing` (processor.py:203-209);
`node.get` on a non-dict raises, and a truthy non-string path value
raises at `.strip()`. -/
def treeNodeLine (node : Json) : Except PyError (Option String) :=
  match node with
  | .obj kvs =>
    match orJson (jsonGet kvs ("path")) (orJson (jsonGet kvs ("name")) (some (.str ""))) with
    | some (.str s) =>
      let path := pyStrip s
      if path = "" then .ok none
      else
        let nodeType := orJson (jsonGet kvs ("type")) (jsonGet kvs ("mode"))
        let suffix :=
          match nodeType with
          | some v => if pyTruthy v then " (" ++ fstr (some v) ++ ")" else ""
          | none => ""
        .ok (some (path ++ suffix))
    | _ => .error (.attributeError ("object has no attribute strip"))
  | _ => .error (.attributeError ("object has no attribute get"))

/-- Embeds `_collect_repo_tree_listing` (processor.py:197-213). -/
def collectRepoTreeListing (env : ProcEnv) : Except PyError String := do
  let nodes ← env.repoTree
  match nodes with
  | [] => return ""
  | _ =>
    let lines ← (nodes.take 120).filterMapM treeNodeLine
    let lines :=
      if nodes.length > 120 then
        lines ++ ["... (+" ++ toString (nodes.length - 120) ++ " more entries)"]
      else lines
    return String.intercalate ("\n") lines

/-- Embeds `_augment_with_repo_context` (processor.py:172-184): only the
branch lookup is inside a try/except; the doc read and the tree listing
raise out of the method. -/
def augmentWithRepoContext (env : ProcEnv) (description : String) :
    Except PyError String := do
  let ref :=
    match env.branches with
    | .ok (_, r) => r
    | .error _ =>
      match env.defaultBranch with
      | some b => if b ≠ "" then b else "main"
      | none => "main"
  let (docText, docName) ← readProjectDoc env
  let treeListing ← collectRepoTreeListing env
  let parts := [description]
    ++ (if docText ≠ "" then [docName ++ " contents:\n" ++ docText] else [])
    ++ (if treeListing ≠ "" then ["Repository tree (" ++ ref ++ "):\n" ++ treeListing] else [])
  return pyStrip (String.intercalate ("\n\n") (parts.filter (fun p => p ≠ "")))

/-- Embeds `_review_and_classify` + `_generate_review_outcome`
(processor.py:103-132,159-170) on the `ReviewOutput` branch of the
result-shape dispatch (the configured reviewer returns `ReviewOutput`).
`review_f.result()` and `label_f.result()` are not wrapped in try/except,
so a raising reviewer or classifier propagates. -/
def generateReviewOutcome (cfg : ProcCfg) (env : ProcEnv)
    (title description : String) : Except PyError ReviewOutcome := do
  let reviewRes ← env.review title description
  let reviewComments := (reviewRes.comments.map toMarkdown)
  let inlineFindings := reviewRes.inline_findings
  let labelChoice ← if cfg.hasClassifier then env.classify else pure none
  return { comments := reviewComments, labels := labelChoice,
           inline_findings := inlineFindings }

/-- Embeds `_safe_get_latest_version_id` (processor.py:239-243): any
raised exception degrades to `None`. -/
def safeLatestVersionId (env : ProcEnv) : Option String :=
  match env.latestVersionId with
  | .ok v => v
  | .error _ => none

/-- Embeds `_build_version_marker` (processor.py:245-246):
`f"[ai-review v:{version_id or 'unknown'}]"`. -/
def buildVersionMarker (versionId : Option String) : String :=
  "[ai-review v:" ++
    (match versionId with
     | some s => if s ≠ "" then s else "unknown"
     | none => "unknown") ++ "]"

/-- Truthiness of an optional string (`commit_sha and ...`,
`version_id and ...`). -/
def optTruthy : Option String → Bool
  | some s => s ≠ ""
  | none => false

/-- Key `f"{project_id}:{mr_iid}"` of the marker dicts. -/
def markerKey (projectId mrIid : Int) : String :=
  toString projectId ++ ":" ++ toString mrIid

/-- Embeds `_has_local_version_marker` (processor.py:272-276). -/
def hasLocalVersionMarker (st : MarkerStore) (projectId mrIid : Int)
    (versionId : String) : Bool :=
  versionId ∈ dGet st.versions (markerKey projectId mrIid)

/-- Embeds `_mark_local_version_processed` (processor.py:278-287). -/
def markLocalVersionProcessed (st : MarkerStore) (projectId mrIid : Int)
    (versionId : String) : MarkerStore :=
  if versionId = "" then st
  else
    let key := markerKey projectId mrIid
    let seen := dGet st.versions key
    if versionId ∈ seen then st
    else { st with versions := dSet st.versions key (seen ++ [versionId]) }

/-- Embeds `_has_local_commit_marker` (processor.py:292-298). -/
def hasLocalCommitMarker (st : MarkerStore) (projectId mrIid : Int)
    (commitSha : String) : Bool :=
  if commitSha = "" then false
  else commitSha ∈ dGet st.commits (markerKey projectId mrIid)

/-- Embeds `_mark_local_commit_processed` (processor.py:300-309). -/
def markLocalCommitProcessed (st : MarkerStore) (projectId mrIid : Int)
    (commitSha : String) : MarkerStore :=
  if commitSha = "" then st
  else
    let key := markerKey projectId mrIid
    let seen := dGet st.commits key
    if commitSha ∈ seen then st
    else { st with commits := dSet st.commits key (seen ++ [commitSha]) }

/-- Posting loop of `_post_review_comments` (processor.py:258-260): each
truthy body is posted; a failing `post_mr_note` raises immediately, with
prior posts kept. -/
def postNoteLoop (env : ProcEnv) (bodies : List String) (callIdx : Nat)
    (acc : List Post) : Except PyError Unit × Nat × List Post :=
  match bodies with
  | [] => (.ok (), callIdx, acc)
  | b :: rest =>
    if b ≠ "" then
      match env.postNote callIdx with
      | some e => (.error e, callIdx, acc)
      | none => postNoteLoop env rest (callIdx + 1) (acc ++ [.note b])
    else postNoteLoop env rest callIdx acc

/-- Embeds `_post_review_comments` (processor.py:248-260): the marker is
prepended to the first comment body (or becomes the whole first body when
that body is falsy; on an empty list the index assignment raises
`IndexError`, though the caller guards against that). -/
def postReviewComments (env : ProcEnv) (comments : List String)
    (marker : String) : Except PyError Unit × List Post :=
  match comments with
  | [] => (.error (.indexError ("list assignment index out of range")), [])
  | c :: rest =>
    let first := if c ≠ "" then marker ++ "\n" ++ c else marker
    let (r, _, posts) := postNoteLoop env (first :: rest) 0 []
    (r, posts)

/-- Embeds `_post_inline_findings` (processor.py:262-264): one
`review_line` call per finding, a failure raising immediately. -/
def postInlineLoop (env : ProcEnv) (findings : List InlineFinding)
    (callIdx : Nat) (acc : List Post) : Except PyError Unit × List Post :=
  match findings with
  | [] => (.ok (), acc)
  | f :: rest =>
    match env.reviewLine callIdx with
    | some e => (.error e, acc)
    | none => postInlineLoop env rest (callIdx + 1) (acc ++ [.inline f.path f.line f.body])

/-- Embeds the posting phase of `_handle_review_outcome`
(processor.py:233-237): comments first, then inline findings when
present, then labels when truthy; a raise at any point stops the later
phases but keeps the earlier side effects. -/
def postAll (env : ProcEnv) (outcome : ReviewOutcome) (marker : String) :
    Except PyError Unit × List Post :=
  match postReviewComments env outcome.comments marker with
  | (.error e, posts) => (.error e, posts)
  | (.ok (), posts) =>
    let (r, posts) :=
      match outcome.inline_findings with
      | [] => (Except.ok (), posts)
      | fs =>
        match postInlineLoop env fs 0 [] with
        | (.error e, ip) => (Except.error e, posts ++ ip)
        | (.ok (), ip) => (Except.ok (), posts ++ ip)
    match r with
    | .error e => (.error e, posts)
    | .ok () =>
      match outcome.labels with
      | some ls =>
        if ls ≠ [] then
          match env.updateLabels with
          | some e => (.error e, posts)
          | none => (.ok (), posts ++ [.labels ls])
        else (.ok (), posts)
      | none => (.ok (), posts)

/-- Marker persistence step of `_handle_review_outcome`
(processor.py:228-231): the version marker is recorded when the version
id is truthy, then the commit marker when the commit sha is truthy —
both before any posting happens. -/
def persistMarkers (projectId mrIid : Int) (versionId commitSha : Option String)
    (st : MarkerStore) : MarkerStore :=
  let st := if optTruthy versionId then
      markLocalVersionProcessed st projectId mrIid (versionId.getD "") else st
  if optTruthy commitSha then
    markLocalCommitProcessed st projectId mrIid (commitSha.getD "") else st

/-- Marker-check condition of `_handle_review_outcome`
(processor.py:227): `not (commit_sha and has-commit-marker) and
not (version_id and has-version-marker)`. -/
def shouldPost (env : ProcEnv) (projectId mrIid : Int)
    (commitSha : Option String) (st : MarkerStore) : Bool :=
  let versionId := safeLatestVersionId env
  !(optTruthy commitSha && hasLocalCommitMarker st projectId mrIid ((commitSha.getD ""))) &&
  !(optTruthy versionId && hasLocalVersionMarker st projectId mrIid ((versionId.getD "")))

/-- Embeds `_handle_review_outcome` (processor.py:215-237): when there
are comments, read the latest version id (safely), build the marker,
check the two local marker stores, and if neither matches, persist both
markers first and only then post comments, inline findings and labels. -/
def handleReviewOutcome (env : ProcEnv) (projectId mrIid : Int)
    (outcome : ReviewOutcome) (commitSha : Option String) (st : MarkerStore) :
    Except PyError Unit × MarkerStore × List Post :=
  match outcome.comments with
  | [] => (.ok (), st, [])
  | _ =>
    if shouldPost env projectId mrIid commitSha st then
      let st := persistMarkers projectId mrIid (safeLatestVersionId env) commitSha st
      let pr := postAll env outcome (buildVersionMarker (safeLatestVersionId env))
      (pr.1, st, pr.2)
    else (.ok (), st, [])

/-- Embeds the preparation steps of `process_merge_request`
(processor.py:46-51): service construction, project fetch, MR data
gathering, ticket and repository-context augmentation, and review
generation, none wrapped in try/except. -/
def prepareOutcome (cfg : ProcCfg) (env : ProcEnv)
    (title description : String) : Except PyError ReviewOutcome := do
  let _ ← if cfg.serviceProvided then (Except.ok ()) else env.makeService
  let _ ← env.getProject
  let (_, _, _) ← gatherMrData env
  let descriptionAug ← augmentWithTickets cfg env description
  let descriptionAug ← augmentWithRepoContext env descriptionAug
  generateReviewOutcome cfg env title descriptionAug

/-- Embeds `process_merge_request` (processor.py:45-52), split into the
read-only preparation (`prepareOutcome`, lines 46-51) and the posting
step (`handleReviewOutcome`, line 52). -/
def processMergeRequest (cfg : ProcCfg) (env : ProcEnv)
    (projectId mrIid : Int) (title description : String)
    (commitSha : Option String) (st : MarkerStore) :
    Except PyError Unit × MarkerStore × List Post :=
  match prepareOutcome cfg env title description with
  | .error e => (.error e, st, [])
  | .ok outcome => handleReviewOutcome env projectId mrIid outcome commitSha st

/-! Lemmas about the marker store and the idempotent-posting logic. -/

theorem dGet_dSet (d : List (String × List String)) (k : String) (v : List String) :
    dGet (dSet d k v) k = v := by
  induction d with
  | nil => simp [dGet, dSet, List.find?]
  | cons kv rest ih =>
    by_cases h : kv.1 = k
    · simp [dGet, dSet, h, List.find?]
    · simp only [dSet, if_neg h]
      simpa [dGet, List.find?, h] using ih

theorem hasLocalVersionMarker_of_mem {st : MarkerStore} {p m : Int} {v : String}
    (h : v ∈ dGet st.versions (markerKey p m)) :
    hasLocalVersionMarker st p m v = true := by
  unfold hasLocalVersionMarker
  exact decide_eq_true h

theorem mem_of_hasLocalVersionMarker {st : MarkerStore} {p m : Int} {v : String}
    (h : hasLocalVersionMarker st p m v = true) :
    v ∈ dGet st.versions (markerKey p m) := by
  unfold hasLocalVersionMarker at h
  exact of_decide_eq_true h

theorem mem_markLocalVersionProcessed (st : MarkerStore) (p m : Int) (v : String)
    (hv : v ≠ "") :
    v ∈ dGet (markLocalVersionProcessed st p m v).versions (markerKey p m) := by
  simp only [markLocalVersionProcessed, if_neg hv]
  by_cases h : v ∈ dGet st.versions (markerKey p m)
  · simp only [if_pos h]
    exact h
  · simp [h, dGet_dSet]

theorem mem_markLocalCommitProcessed (st : MarkerStore) (p m : Int) (sha : String)
    (hsha : sha ≠ "") :
    sha ∈ dGet (markLocalCommitProcessed st p m sha).commits (markerKey p m) := by
  simp only [markLocalCommitProcessed, if_neg hsha]
  by_cases h : sha ∈ dGet st.commits (markerKey p m)
  · simp only [if_pos h]
    exact h
  · simp [h, dGet_dSet]

theorem versions_markLocalCommitProcessed (st : MarkerStore) (p m : Int) (sha : String) :
    (markLocalCommitProcessed st p m sha).versions = st.versions := by
  unfold markLocalCommitProcessed
  by_cases h : sha = ""
  · simp [h]
  · simp only [if_neg h]
    by_cases h2 : sha ∈ dGet st.commits (markerKey p m)
    · simp [h2]
    · simp [h2]

theorem mem_versions_persistMarkers (p m : Int) (v : String) (sha : Option String)
    (st : MarkerStore) (hv : v ≠ "") :
    v ∈ dGet (persistMarkers p m (some v) sha st).versions (markerKey p m) := by
  have ht : optTruthy (some v) = true := by simp [optTruthy, hv]
  simp only [persistMarkers, ht, if_true]
  split
  · rw [versions_markLocalCommitProcessed]
    exact mem_markLocalVersionProcessed st p m v hv
  · exact mem_markLocalVersionProcessed st p m v hv

theorem handleReviewOutcome_marks (env : ProcEnv) (p m : Int) (oc : ReviewOutcome)
    (sha : Option String) (st : MarkerStore) (v : String) (hv : v ≠ "")
    (hver : safeLatestVersionId env = some v)
    (hposts : (handleReviewOutcome env p m oc sha st).2.2 ≠ []) :
    hasLocalVersionMarker (handleReviewOutcome env p m oc sha st).2.1 p m v = true := by
  rcases hc : oc.comments with _ | ⟨c, cs⟩
  · exfalso
    apply hposts
    simp [handleReviewOutcome, hc]
  · by_cases hg : shouldPost env p m sha st = true
    · have he : handleReviewOutcome env p m oc sha st =
        ((postAll env oc (buildVersionMarker (safeLatestVersionId env))).1,
         persistMarkers p m (safeLatestVersionId env) sha st,
         (postAll env oc (buildVersionMarker (safeLatestVersionId env))).2) := by
        simp [handleReviewOutcome, hc, hg]
      rw [he]
      rw [hver]
      exact hasLocalVersionMarker_of_mem (mem_versions_persistMarkers p m v sha st hv)
    · exfalso
      apply hposts
      simp [handleReviewOutcome, hc, hg]

theorem handleReviewOutcome_skips (env : ProcEnv) (p m : Int) (oc : ReviewOutcome)
    (sha : Option String) (st : MarkerStore) (v : String) (hv : v ≠ "")
    (hver : safeLatestVersionId env = some v)
    (hmem : hasLocalVersionMarker st p m v = true) :
    handleReviewOutcome env p m oc sha st = (.ok (), st, []) := by
  have hg : shouldPost env p m sha st = false := by
    simp [shouldPost, hver, optTruthy, hv, hmem]
  unfold handleReviewOutcome
  rcases hc : oc.comments with _ | ⟨c, cs⟩
  · rfl
  · simp [hg]

theorem processMergeRequest_marks (cfg : ProcCfg) (env : ProcEnv) (p m : Int)
    (t d : String) (sha : Option String) (st : MarkerStore) (v : String)
    (hv : v ≠ "") (hver : safeLatestVersionId env = some v)
    (hposts : (processMergeRequest cfg env p m t d sha st).2.2 ≠ []) :
    hasLocalVersionMarker (processMergeRequest cfg env p m t d sha st).2.1 p m v = true := by
  rcases hprep : prepareOutcome cfg env t d with e | oc
  · exfalso
    apply hposts
    simp [processMergeRequest, hprep]
  · have he : processMergeRequest cfg env p m t d sha st =
        handleReviewOutcome env p m oc sha st := by
      simp [processMergeRequest, hprep]
    rw [he] at hposts ⊢
    exact handleReviewOutcome_marks env p m oc sha st v hv hver hposts

theorem processMergeRequest_skips (cfg : ProcCfg) (env : ProcEnv) (p m : Int)
    (t d : String) (sha : Option String) (st : MarkerStore) (v : String)
    (hv : v ≠ "") (hver : safeLatestVersionId env = some v)
    (hmem : hasLocalVersionMarker st p m v = true) :
    (processMergeRequest cfg env p m t d sha st).2.2 = [] := by
  rcases hprep : prepareOutcome cfg env t d with e | oc
  · simp [processMergeRequest, hprep]
  · have he : processMergeRequest cfg env p m t d sha st =
        handleReviewOutcome env p m oc sha st := by
      simp [processMergeRequest, hprep]
    rw [he, handleReviewOutcome_skips env p m oc sha st v hv hver hmem]

/-! Concrete environments used by counterexamples and witnesses. -/

/-- Environment in which every external call succeeds, the reviewer
produces one comment, and the VCS adapter reports the empty string as
the latest MR version id on every run (which the in-repo GitLab adapter
can in fact produce, gitlab_service.py:332). -/
def envEmptyVersion : ProcEnv :=
  { review := fun _ _ => .ok { comments := [{ title := "T", body := "B" }] },
    latestVersionId := .ok (some "") }

/-- Same benign environment but with a non-empty latest version id. -/
def envVersionSeven : ProcEnv :=
  { review := fun _ _ => .ok { comments := [{ title := "T", body := "B" }] },
    latestVersionId := .ok (some "7") }

/-- Environment in which fetching the project handle raises, as in the
repository's own regression test
`test_processor_handles_service_failure_gracefully`
(src/tests/test_fault_tolerance.py:91-106). -/
def envProjectBoom : ProcEnv :=
  { getProject := .error (.runtimeError "boom") }

/-- Environment in which exactly the diff fetch raises while the changed
files and commits fetches succeed with real values. -/
def envDiffBoom : ProcEnv :=
  { diffText := .error (.runtimeError "diff boom"),
    changedFiles := .ok [("a.py", "x = 1")],
    commits := .ok [.obj [("message", .str "fix bug")]] }

/-- Environment whose first `post_mr_note` call raises, for the
marker-before-posting claim. -/
def envPostBoom : ProcEnv :=
  { latestVersionId := .ok (some "9"),
    postNote := fun _ => some (.runtimeError "post boom") }

/-- Run identical settings of the C1 counterexample twice. -/
def c1run1 : Except PyError Unit × MarkerStore × List Post :=
  processMergeRequest {} envEmptyVersion 1 2 "t" "d" none {}

/-- Second run of the C1 counterexample, from the store the first run
left behind. -/
def c1run2 : Except PyError Unit × MarkerStore × List Post :=
  processMergeRequest {} envEmptyVersion 1 2 "t" "d" none c1run1.2.1

/-- C1 counterexample: with the VCS adapter returning the *empty string*
as latest version id on both runs (a non-null id, and one the in-repo
adapter can return), both calls post a full set of review notes: the
code treats a falsy version id as absent, records no marker, and the
second call posts again.  This refutes the claim as stated, which only
assumes a non-null id. -/
theorem c1_counterexample :
    safeLatestVersionId envEmptyVersion = some "" ∧
    c1run1.2.2 = [.note ("[ai-review v:unknown]\n### T\n\nB")] ∧
    c1run2.2.2 = [.note ("[ai-review v:unknown]\n### T\n\nB")] := by
  refine ⟨rfl, ?_, ?_⟩ <;> rfl

/-- C1 (amended): for a fixed MR (`projectId`, `mrIid`) and any two runs
whose environments agree on a non-null **and non-empty** latest version
id, if the first `process_merge_request` call posted anything, the
second call detects the persisted version marker and posts nothing — no
notes, no inline findings, no labels. -/
theorem c1_amended_idempotent (cfg : ProcCfg) (env1 env2 : ProcEnv)
    (p m : Int) (t1 d1 t2 d2 : String) (sha1 sha2 : Option String)
    (st0 : MarkerStore) (v : String) (hv : v ≠ "")
    (h1 : safeLatestVersionId env1 = some v)
    (h2 : safeLatestVersionId env2 = some v)
    (hposted : (processMergeRequest cfg env1 p m t1 d1 sha1 st0).2.2 ≠ []) :
    (processMergeRequest cfg env2 p m t2 d2 sha2
      (processMergeRequest cfg env1 p m t1 d1 sha1 st0).2.1).2.2 = [] := by
  have hmem := processMergeRequest_marks cfg env1 p m t1 d1 sha1 st0 v hv h1 hposted
  exact processMergeRequest_skips cfg env2 p m t2 d2 sha2 _ v hv h2 hmem

/-- Witness for the amended C1 theorem at a concrete environment: the
first run posts a marked note, the second posts nothing. -/
theorem c1_amended_idempotent_witness :
    (processMergeRequest {} envVersionSeven 1 2 "t" "d" none {}).2.2 ≠ [] ∧
    (processMergeRequest {} envVersionSeven 1 2 "t" "d" none
      (processMergeRequest {} envVersionSeven 1 2 "t" "d" none {}).2.1).2.2 = [] :=
  ⟨by decide,
   c1_amended_idempotent {} envVersionSeven envVersionSeven 1 2 "t" "d" "t" "d"
     none none {} "7" (by decide) rfl rfl (by decide)⟩

/-- C2: contrary to the spec and to the repository's own regression test
(test_fault_tolerance.py:91-106, "Should not raise"),
`process_merge_request` of the canonical idempotency-marker processor
has no try/except at all: when `get_project` raises, the exception
propagates to the caller instead of aborting silently. -/
theorem c2_project_fetch_failure_raises :
    processMergeRequest {} envProjectBoom 1 1 "t" "d" none {} =
      (.error (.runtimeError "boom"), {}, []) ∧
    (processMergeRequest {} envProjectBoom 1 1 "t" "d" none {}).1 ≠ .ok () := by
  refine ⟨rfl, ?_⟩
  have h1 : (processMergeRequest {} envProjectBoom 1 1 "t" "d" none {}).1 =
      .error (.runtimeError "boom") := rfl
  rw [h1]
  exact fun h => Except.noConfusion h

/-- C3: contrary to the docstring of `_gather_mr_data` ("Returns empty
values when individual fetches fail"), a failing diff fetch raises out
of the canonical gather step and aborts the whole run, while the legacy
variant (webhook_processor.py:61-81) embedded as `gatherMrDataLegacy`
degrades the failed fetch to an empty value and keeps the other two
real values, exactly as the claim states. -/
theorem c3_gather_aborts_on_single_failure :
    gatherMrData envDiffBoom = .error (.runtimeError "diff boom") ∧
    gatherMrDataLegacy envDiffBoom = ("", [("a.py", "x = 1")], [.str "fix bug"]) ∧
    processMergeRequest {} envDiffBoom 3 4 "t" "d" none {} =
      (.error (.runtimeError "diff boom"), {}, []) := by
  exact ⟨rfl, rfl, rfl⟩

/-- C10: the version marker (and, when a commit sha is supplied, the
commit marker) is persisted to the local store *before* any note is
posted: whatever the posting outcomes in `env1` (including a first
`post_mr_note` call that raises), after a run that passed the marker
check the store records the version id, it is not rolled back, and every
subsequent `process_merge_request` run seeing the same version id posts
nothing. -/
theorem c10_marker_persisted_before_posting (env1 : ProcEnv) (p m : Int)
    (oc : ReviewOutcome) (sha : Option String) (st0 : MarkerStore) (v : String)
    (hv : v ≠ "") (hver : safeLatestVersionId env1 = some v)
    (hc : oc.comments ≠ [])
    (hguard : shouldPost env1 p m sha st0 = true) :
    hasLocalVersionMarker
      (handleReviewOutcome env1 p m oc sha st0).2.1 p m v = true ∧
    (∀ s, sha = some s → s ≠ "" →
      s ∈ dGet (handleReviewOutcome env1 p m oc sha st0).2.1.commits (markerKey p m)) ∧
    (∀ (cfg : ProcCfg) (env2 : ProcEnv) (t d : String) (sha2 : Option String),
      safeLatestVersionId env2 = some v →
      (processMergeRequest cfg env2 p m t d sha2
        (handleReviewOutcome env1 p m oc sha st0).2.1).2.2 = []) := by
  rcases hcs : oc.comments with _ | ⟨c, cs⟩
  · exact absurd hcs hc
  · have he : handleReviewOutcome env1 p m oc sha st0 =
        ((postAll env1 oc (buildVersionMarker (safeLatestVersionId env1))).1,
         persistMarkers p m (safeLatestVersionId env1) sha st0,
         (postAll env1 oc (buildVersionMarker (safeLatestVersionId env1))).2) := by
      simp [handleReviewOutcome, hcs, hguard]
    have hmem : hasLocalVersionMarker
        (handleReviewOutcome env1 p m oc sha st0).2.1 p m v = true := by
      rw [he, hver]
      exact hasLocalVersionMarker_of_mem (mem_versions_persistMarkers p m v sha st0 hv)
    refine ⟨hmem, ?_, ?_⟩
    · intro s hs hsne
      rw [he, hver, hs]
      have ht : optTruthy (some s) = true := by simp [optTruthy, hsne]
      simp only [persistMarkers, ht, if_true]
      exact mem_markLocalCommitProcessed _ p m s hsne
    · intro cfg env2 t d sha2 hver2
      exact processMergeRequest_skips cfg env2 p m t d sha2 _ v hv hver2 hmem

/-- Witness for C10 at a concrete environment where the very first note
post raises: the marker is still recorded and a subsequent run posts
nothing. -/
theorem c10_marker_persisted_before_posting_witness :
    hasLocalVersionMarker
      (handleReviewOutcome envPostBoom 1 2 { comments := ["C"] } (some "abc") {}).2.1
      1 2 "9" = true ∧
    ("abc" ∈ dGet
      (handleReviewOutcome envPostBoom 1 2 { comments := ["C"] } (some "abc") {}).2.1.commits
      (markerKey 1 2)) ∧
    (processMergeRequest {} envPostBoom 1 2 "t" "d" none
      (handleReviewOutcome envPostBoom 1 2 { comments := ["C"] } (some "abc") {}).2.1).2.2 = [] := by
  have h := c10_marker_persisted_before_posting envPostBoom 1 2
    { comments := ["C"] } (some "abc") {} "9" (by decide) rfl (by decide) (by decide)
  exact ⟨h.1, h.2.1 "abc" rfl (by decide), h.2.2 {} envPostBoom "t" "d" none rfl⟩

/-! Claim C4: event filtering. -/

/-- Evaluation of `handle_merge_request_event` on a well-formed
merge-request payload: the result depends only on the ids and the
action, never on the `changes` attribute. -/
theorem handleMRE_mk_eval (action : String) (pid iid : Int) (changes : Json) :
    handleMergeRequestEvent (mkMRPayload action pid iid changes) =
      (if pid ≤ 0 ∨ iid ≤ 0 then .ok .error
       else if action = "open" ∨ action = "reopen" ∨ action = "update" then .ok .ok
       else .ok .ignored) := rfl

/-- Payload of an `update` action whose only changed attribute is
`labels`. -/
def c4Payload : List (String × Json) :=
  mkMRPayload ("update") 7 5 (.obj [("labels", .obj
    [("previous", .arr []), ("current", .arr [.str "bug"])])])

/-- C4 counterexample: an update event whose set of changed attribute
names is exactly `{labels}` — a non-empty subset of the claimed
non-meaningful set — is classified `ok`/processable, not `ignored`:
neither processor variant implements the non-meaningful-update rule
(no code in the repository reads the `changes` attribute). -/
theorem c4_counterexample :
    handleMergeRequestEvent c4Payload = .ok .ok ∧
    EventStatus.ok ≠ EventStatus.ignored :=
  ⟨rfl, by decide⟩

/-- C4 (amended): `handle_merge_request_event` never inspects the
`changes` attribute: an update action with valid positive ids is
classified `ok` whatever changed (labels-only updates included, and
description updates in particular), actions outside
`{open, reopen, update}` are classified `ignored`, and the function is a
pure function of the payload (no network I/O, being a total Lean
function of the payload value). -/
theorem c4_amended_no_change_filter (action : String) (pid iid : Int)
    (changes changes2 : Json) :
    handleMergeRequestEvent (mkMRPayload action pid iid changes) =
      handleMergeRequestEvent (mkMRPayload action pid iid changes2) ∧
    (0 < pid → 0 < iid →
      (action = "open" ∨ action = "reopen" ∨ action = "update") →
      handleMergeRequestEvent (mkMRPayload action pid iid changes) = .ok .ok) ∧
    (0 < pid → 0 < iid →
      ¬(action = "open" ∨ action = "reopen" ∨ action = "update") →
      handleMergeRequestEvent (mkMRPayload action pid iid changes) = .ok .ignored) := by
  refine ⟨?_, ?_, ?_⟩
  · rw [handleMRE_mk_eval, handleMRE_mk_eval]
  · intro hp hm ha
    rw [handleMRE_mk_eval, if_neg (by omega), if_pos ha]
  · intro hp hm ha
    rw [handleMRE_mk_eval, if_neg (by omega), if_neg ha]

/-- Witness for the amended C4 theorem at concrete payloads. -/
theorem c4_amended_no_change_filter_witness :
    handleMergeRequestEvent (mkMRPayload ("update") 7 5 (.str "x")) = .ok .ok ∧
    handleMergeRequestEvent (mkMRPayload ("close") 7 5 (.str "x")) = .ok .ignored :=
  ⟨(c4_amended_no_change_filter "update" 7 5 (.str "x") (.str "x")).2.1
      (by decide) (by decide) (Or.inr (Or.inr rfl)),
   (c4_amended_no_change_filter "close" 7 5 (.str "x") (.str "x")).2.2
      (by decide) (by decide) (by decide)⟩

/-! Claim C5: finding ordering.  Infrastructure: the insertion sort
`stableSort` is a stable sort, so it agrees with Python `list.sort`. -/

theorem mem_insertByLe {le : α → α → Bool} {x y : α} {l : List α} :
    y ∈ insertByLe le x l ↔ y = x ∨ y ∈ l := by
  induction l with
  | nil => simp [insertByLe]
  | cons z zs ih =>
    unfold insertByLe
    by_cases h : le z x = true
    · simp only [if_pos h, List.mem_cons, ih]
      tauto
    · simp only [if_neg h, List.mem_cons]

theorem pairwise_insertByLe {le : α → α → Bool}
    (htot : ∀ a b, le a b = true ∨ le b a = true)
    (htrans : ∀ a b c, le a b = true → le b c = true → le a c = true)
    (x : α) {l : List α} (h : l.Pairwise (fun a b => le a b = true)) :
    (insertByLe le x l).Pairwise (fun a b => le a b = true) := by
  induction l with
  | nil => simp [insertByLe]
  | cons z zs ih =>
    rw [List.pairwise_cons] at h
    unfold insertByLe
    by_cases hle : le z x = true
    · rw [if_pos hle, List.pairwise_cons]
      refine ⟨?_, ih h.2⟩
      intro y hy
      rcases mem_insertByLe.mp hy with rfl | hy2
      · exact hle
      · exact h.1 y hy2
    · rw [if_neg hle, List.pairwise_cons]
      have hxz : le x z = true := by
        rcases htot x z with h1 | h1
        · exact h1
        · exact absurd h1 hle
      refine ⟨?_, List.pairwise_cons.mpr h⟩
      intro y hy
      rcases List.mem_cons.mp hy with rfl | hy2
      · exact hxz
      · exact htrans x z y hxz (h.1 y hy2)

theorem pairwise_stableSort (le : α → α → Bool)
    (htot : ∀ a b, le a b = true ∨ le b a = true)
    (htrans : ∀ a b c, le a b = true → le b c = true → le a c = true)
    (l : List α) :
    (stableSort le l).Pairwise (fun a b => le a b = true) := by
  suffices haux : ∀ (l acc : List α),
      acc.Pairwise (fun a b => le a b = true) →
      (l.foldl (fun a x => insertByLe le x a) acc).Pairwise (fun a b => le a b = true) by
    exact haux l [] List.Pairwise.nil
  intro l
  induction l with
  | nil => exact fun acc h => h
  | cons x xs ih =>
    intro acc h
    exact ih _ (pairwise_insertByLe htot htrans x h)

theorem perm_insertByLe (le : α → α → Bool) (x : α) (l : List α) :
    (insertByLe le x l).Perm (x :: l) := by
  induction l with
  | nil => exact List.Perm.refl _
  | cons z zs ih =>
    unfold insertByLe
    by_cases h : le z x = true
    · rw [if_pos h]
      exact (ih.cons z).trans (List.Perm.swap x z zs)
    · rw [if_neg h]

theorem perm_stableSort (le : α → α → Bool) (l : List α) :
    (stableSort le l).Perm l := by
  suffices haux : ∀ (l acc : List α),
      (l.foldl (fun a x => insertByLe le x a) acc).Perm (acc ++ l) by
    simpa using haux l []
  intro l
  induction l with
  | nil =>
    intro acc
    simp
  | cons x xs ih =>
    intro acc
    have h2 : ((insertByLe le x acc) ++ xs).Perm ((x :: acc) ++ xs) :=
      (perm_insertByLe le x acc).append_right xs
    have h3 : ((insertByLe le x acc) ++ xs).Perm (acc ++ x :: xs) :=
      h2.trans List.perm_middle.symm
    exact (ih (insertByLe le x acc)).trans h3

theorem findingLe_total (a b : AgentFinding) :
    findingLe a b = true ∨ findingLe b a = true := by
  unfold findingLe
  by_cases h : a.path = b.path
  · rw [if_pos h, if_pos h.symm]
    rcases Int.le_total a.line b.line with h1 | h1
    · exact Or.inl (decide_eq_true h1)
    · exact Or.inr (decide_eq_true h1)
  · rw [if_neg h, if_neg (Ne.symm h)]
    rcases Ne.lt_or_lt h with h1 | h1
    · exact Or.inl (decide_eq_true h1)
    · exact Or.inr (decide_eq_true h1)

theorem findingLe_trans (a b c : AgentFinding)
    (h1 : findingLe a b = true) (h2 : findingLe b c = true) :
    findingLe a c = true := by
  unfold findingLe at h1 h2 ⊢
  by_cases hab : a.path = b.path <;> by_cases hbc : b.path = c.path
  · rw [if_pos hab] at h1
    rw [if_pos hbc] at h2
    rw [if_pos (hab.trans hbc)]
    exact decide_eq_true (le_trans (of_decide_eq_true h1) (of_decide_eq_true h2))
  · rw [if_neg hbc] at h2
    have hlt : b.path < c.path := of_decide_eq_true h2
    have hac : a.path ≠ c.path := by
      rw [hab]
      exact ne_of_lt hlt
    rw [if_neg hac]
    exact decide_eq_true (hab ▸ hlt)
  · rw [if_neg hab] at h1
    have hlt : a.path < b.path := of_decide_eq_true h1
    have hac : a.path ≠ c.path := hbc ▸ ne_of_lt hlt
    rw [if_neg hac]
    exact decide_eq_true (hbc ▸ hlt)
  · rw [if_neg hab] at h1
    rw [if_neg hbc] at h2
    have hlt := lt_trans (of_decide_eq_true h1) (of_decide_eq_true h2)
    rw [if_neg (ne_of_lt hlt)]
    exact decide_eq_true hlt

theorem inlineFindingsOf_eq (l : List AgentResult) :
    inlineFindingsOf l =
      (stableSort findingLe (l.flatMap (fun r => r.findings))).map
        (fun f => { path := f.path, line := f.line, body := f.body,
                    source := if f.source ≠ "" then f.source else "" }) := by
  unfold inlineFindingsOf
  rcases h : l.flatMap (fun r => r.findings) with _ | ⟨f, fs⟩
  · simp [stableSort]
  · simp

/-- Agent results used by the C5 counterexample: two agents report a
finding at the same `(path, line)` with different bodies. -/
def resNaming : AgentResult :=
  { key := "naming_quality",
    findings := [{ path := "p.py", line := 3, body := "A", source := "naming_quality" }] }

/-- Second agent result for the C5 counterexample. -/
def resTest : AgentResult :=
  { key := "test_coverage",
    findings := [{ path := "p.py", line := 3, body := "B", source := "test_coverage" }] }

/-- C5 counterexample: for two completion orders of the same two agent
results (a permutation of each other), both outputs are sorted by
`(path, line)`, yet the final lists differ — Python `list.sort` is
stable, so findings tied on `(path, line)` keep completion order, and
completion order does affect the final list. -/
theorem c5_counterexample :
    ([resNaming, resTest]).Perm [resTest, resNaming] ∧
    (inlineFindingsOf [resNaming, resTest]).Pairwise (fun a b => inlineLe a b = true) ∧
    (inlineFindingsOf [resTest, resNaming]).Pairwise (fun a b => inlineLe a b = true) ∧
    inlineFindingsOf [resNaming, resTest] ≠ inlineFindingsOf [resTest, resNaming] := by
  refine ⟨by decide, by decide, by decide, by decide⟩

/-- C5 (amended): the merged `inline_findings` list is always sorted
ascending by `(path, line)`, and completion order cannot change *which*
findings appear (outputs of permuted completion orders are permutations
of each other); only the relative order of findings tied on
`(path, line)` follows completion order. -/
theorem c5_amended_sorted_perm_invariant (l l2 : List AgentResult) :
    (inlineFindingsOf l).Pairwise (fun a b => inlineLe a b = true) ∧
    (l.Perm l2 → (inlineFindingsOf l).Perm (inlineFindingsOf l2)) := by
  constructor
  · rw [inlineFindingsOf_eq]
    have hp := pairwise_stableSort findingLe findingLe_total findingLe_trans
      (l.flatMap (fun r => r.findings))
    exact hp.map _ (fun a b hab => hab)
  · intro hperm
    rw [inlineFindingsOf_eq, inlineFindingsOf_eq]
    apply List.Perm.map
    exact (perm_stableSort _ _).trans
      ((hperm.flatMap_right _).trans (perm_stableSort _ _).symm)

/-- Witness for the amended C5 theorem at concrete results. -/
theorem c5_amended_sorted_perm_invariant_witness :
    (inlineFindingsOf [resNaming, resTest]).Pairwise (fun a b => inlineLe a b = true) ∧
    (inlineFindingsOf [resNaming, resTest]).Perm (inlineFindingsOf [resTest, resNaming]) :=
  ⟨(c5_amended_sorted_perm_invariant [resNaming, resTest] [resTest, resNaming]).1,
   (c5_amended_sorted_perm_invariant [resNaming, resTest] [resTest, resNaming]).2 (by decide)⟩

/-! Claim C6: structured-output resilience. -/

/-- C6: whenever the postprocessed, fence-stripped text fails JSON
parsing, `parse_output` of both structured agents does not raise: it
returns a successful `AgentResult` whose content is the postprocessed
raw text, with an empty findings list and no error. -/
theorem c6_nonjson_degrades (jparse : String → Option Json) (output : String)
    (h : jparse (stripCodeFence (postprocessBase output)) = none) :
    namingParseOutput jparse output =
      .ok { key := "naming_quality", content := postprocessBase output,
            success := true, error := none, findings := [] } ∧
    testParseOutput jparse output =
      .ok { key := "test_coverage", content := postprocessBase output,
            success := true, error := none, findings := [] } := by
  constructor
  · simp only [namingParseOutput, h]
  · simp only [testParseOutput, h]

/-- Witness for C6 at a concrete non-JSON input. -/
theorem c6_nonjson_degrades_witness :
    namingParseOutput (fun _ => none) ("  not json  ") =
      .ok { key := "naming_quality", content := "not json",
            success := true, error := none, findings := [] } ∧
    testParseOutput (fun _ => none) ("  not json  ") =
      .ok { key := "test_coverage", content := "not json",
            success := true, error := none, findings := [] } :=
  c6_nonjson_degrades (fun _ => none) ("  not json  ") rfl

/-! Claim C7: malformed finding rejection. -/

/-- Acceptance predicate of the claim as stated: the entry is a dict
holding a non-empty string `path`, a **positive integer** `line` (an
actual JSON integer), and a non-empty string `comment`. -/
def claimedEntryPred (item : Json) : Prop :=
  ∃ kvs path comment n, item = .obj kvs ∧
    jsonGet kvs ("path") = some (.str path) ∧ path ≠ "" ∧
    jsonGet kvs ("comment") = some (.str comment) ∧ comment ≠ "" ∧
    jsonGet kvs ("line") = some (.int n) ∧ 0 < n

/-- Acceptance predicate actually implemented: the `line` value need
only be convertible by Python `int()` to a positive integer, which also
admits booleans, and numeric strings. -/
def acceptedEntryPred (item : Json) : Prop :=
  ∃ kvs path comment n, item = .obj kvs ∧
    jsonGet kvs ("path") = some (.str path) ∧ path ≠ "" ∧
    jsonGet kvs ("comment") = some (.str comment) ∧ pyStrip comment ≠ "" ∧
    pyToIntOpt (jsonGet kvs ("line")) = some n ∧ 0 < n

/-- Findings entry whose `line` is the JSON boolean `true`. -/
def c7Entry : Json :=
  .obj [("path", .str "a.py"), ("line", .bool true), ("comment", .str "doc missing")]

/-- C7 counterexample: an entry whose `line` is the boolean `true` — not
a positive integer — is *kept* (as a finding at line 1), because
`int(line)` converts Python booleans; so "included only if ... a
positive integer line" fails on the code. -/
theorem c7_counterexample :
    extractFindings ("naming_quality") [c7Entry] =
      [{ path := "a.py", line := 1, body := "doc missing", source := "naming_quality" }] ∧
    ¬ claimedEntryPred c7Entry := by
  constructor
  · rfl
  · rintro ⟨kvs, path, comment, n, hkvs, hpath, hpne, hcom, hcne, hline, hn⟩
    have h0 : Json.obj [("path", .str "a.py"), ("line", .bool true),
        ("comment", .str "doc missing")] = Json.obj kvs := hkvs
    injection h0 with h1
    subst h1
    have hv : jsonGet [("path", Json.str "a.py"), ("line", Json.bool true),
        ("comment", Json.str "doc missing")] ("line") = some (.bool true) := rfl
    rw [hv] at hline
    injection hline with h2
    exact Json.noConfusion h2

/-- C7 (amended): the findings loop keeps exactly the entries that are
dicts with a non-empty string `path`, a non-blank string `comment`, and
a `line` value that Python `int()` converts to a positive integer
(JSON integers, booleans and numeric strings alike); every other entry
is silently dropped while the valid entries are all kept, in order. -/
theorem c7_amended_acceptance (key : String) (items : List Json) (item : Json) :
    extractFindings key items = items.filterMap (acceptEntry key) ∧
    ((acceptEntry key item).isSome ↔ acceptedEntryPred item) := by
  refine ⟨rfl, ?_, ?_⟩
  · intro h
    cases item with
    | obj kvs =>
      simp only [acceptEntry] at h
      rcases hline : pyToIntOpt (jsonGet kvs ("line")) with _ | n
      · simp only [hline] at h
        simp at h
      · simp only [hline] at h
        rcases hpath : jsonGet kvs ("path") with _ | pv
        · simp only [hpath] at h
          simp at h
        · rcases hcom : jsonGet kvs ("comment") with _ | cv
          · simp only [hpath, hcom] at h
            cases pv <;> simp at h
          · simp only [hpath, hcom] at h
            cases pv with
            | str p =>
              cases cv with
              | str c =>
                by_cases hcond : p ≠ "" ∧ n > 0 ∧ pyStrip c ≠ ""
                · exact ⟨kvs, p, c, n, rfl, hpath, hcond.1, hcom, hcond.2.2,
                    hline, hcond.2.1⟩
                · simp only [if_neg hcond] at h
                  simp at h
              | null => simp at h
              | bool b => simp at h
              | int m => simp at h
              | arr xs => simp at h
              | obj kv2 => simp at h
            | null => cases cv <;> simp at h
            | bool b => cases cv <;> simp at h
            | int m => cases cv <;> simp at h
            | arr xs => cases cv <;> simp at h
            | obj kv2 => cases cv <;> simp at h
    | null => simp [acceptEntry] at h
    | bool b => simp [acceptEntry] at h
    | int n => simp [acceptEntry] at h
    | str s => simp [acceptEntry] at h
    | arr xs => simp [acceptEntry] at h
  · rintro ⟨kvs, path, comment, n, rfl, hpath, hpne, hcom, hcne, hline, hn⟩
    simp only [acceptEntry, hline, hpath, hcom]
    rw [if_pos ⟨hpne, hn, hcne⟩]
    rfl

/-- Witness for the amended C7 theorem: a numeric-string line is
accepted. -/
theorem c7_amended_acceptance_witness :
    (acceptEntry ("k")
      (Json.obj [("path", .str "a.py"), ("line", .str "7"),
        ("comment", .str "x")])).isSome = true :=
  (c7_amended_acceptance ("k") []
    (Json.obj [("path", .str "a.py"), ("line", .str "7"), ("comment", .str "x")])).2.mpr
    ⟨[("path", .str "a.py"), ("line", .str "7"), ("comment", .str "x")],
      "a.py", "x", 7, rfl, rfl, by decide, rfl, by decide, rfl, by decide⟩

/-! Claim C8: suppression of "nothing to report" sections. -/

/-- Canonical "all clean" response of the naming agent, exactly as its
own prompt dictates (naming_agent.py:41). -/
def namingCleanResp : Json :=
  .obj [("summary", .arr [.str "Naming is clean, nothing to roast here"]),
        ("findings", .arr [])]

/-- Canonical "all clean" response of the test-coverage agent, exactly
as its own prompt dictates (test_agent.py:46). -/
def testCleanResp : Json :=
  .obj [("summary", .arr [.str "Test coverage looks solid"]), ("gaps", .arr []),
        ("recommended_tests", .arr []), ("findings", .arr []),
        ("proposed_tests", .arr [])]

/-- C8: contrary to the spec and to the "Suppress comment when nothing
actionable" comments in both agents, the canonical nothing-to-report
responses are *not* suppressed to empty content: the naming agent only
suppresses when a summary bullet contains the substring "look fine"
(which its own prompt's phrase does not), and the test agent has no
suppression code at all — both return a non-empty vacuous bullet. -/
theorem c8_vacuous_not_suppressed :
    namingParseOutput (fun _ => some namingCleanResp) ("x") =
      .ok { key := "naming_quality",
            content := "- Naming is clean, nothing to roast here",
            success := true, error := none, findings := [] } ∧
    testParseOutput (fun _ => some testCleanResp) ("x") =
      .ok { key := "test_coverage", content := "- Test coverage looks solid",
            success := true, error := none, findings := [] } ∧
    ("- Naming is clean, nothing to roast here" ≠ "" ∧
     "- Test coverage looks solid" ≠ "") := by
  refine ⟨rfl, rfl, by decide, by decide⟩

/-! Claim C9: project-context loading. -/

/-- C9 counterexample: a file whose content parses as the JSON array
`[]` — text that is not a JSON object — makes `load_project_context`
raise `AttributeError` at `data.get` (the construction sits outside the
try block), instead of returning the default context. -/
theorem c9_counterexample :
    loadProjectContext (fun _ => some (.arr [])) true (.ok "[]") =
      .error (.attributeError ("object has no attribute get")) := rfl

/-- C9 (amended): `load_project_context` returns the default context
when the file is absent, when reading it raises, or when its content
fails JSON parsing; but content that parses to a non-object JSON value
raises instead of degrading. -/
theorem c9_amended_default_or_raise (jparse : String → Option Json)
    (content : String) (e : PyError) (j : Json) :
    (loadProjectContext jparse false (.ok content) = .ok {}) ∧
    (loadProjectContext jparse true (.error e) = .ok {}) ∧
    (jparse content = none → loadProjectContext jparse true (.ok content) = .ok {}) ∧
    (jparse content = some j → (∀ kvs, j ≠ .obj kvs) →
      ∃ err, loadProjectContext jparse true (.ok content) = .error err) := by
  refine ⟨rfl, rfl, ?_, ?_⟩
  · intro h
    simp only [loadProjectContext, h]
    rfl
  · intro h hobj
    cases j with
    | obj kvs => exact absurd rfl (hobj kvs)
    | null => exact ⟨_, by simp only [loadProjectContext, h]; rfl⟩
    | bool b => exact ⟨_, by simp only [loadProjectContext, h]; rfl⟩
    | int n => exact ⟨_, by simp only [loadProjectContext, h]; rfl⟩
    | str s => exact ⟨_, by simp only [loadProjectContext, h]; rfl⟩
    | arr xs => exact ⟨_, by simp only [loadProjectContext, h]; rfl⟩

/-- Witness for the amended C9 theorem at concrete inputs. -/
theorem c9_amended_default_or_raise_witness :
    (loadProjectContext (fun _ => some (.arr [])) false (.ok "x") = .ok {}) ∧
    (∃ err, loadProjectContext (fun _ => some (.arr [])) true (.ok "x") = .error err) :=
  ⟨(c9_amended_default_or_raise (fun _ => some (.arr [])) ("x")
      (.runtimeError "e") (.arr [])).1,
   (c9_amended_default_or_raise (fun _ => some (.arr [])) ("x")
      (.runtimeError "e") (.arr [])).2.2.2 rfl (fun _ h => Json.noConfusion h)⟩

end ForteCore
